import Mathlib

/-!
Verification of the staging subsystem of `lib/spack/spack/stage.py`.

The Python source is embedded shallowly: each definition below models one
function or method of `stage.py` (the line numbers in the doc comments refer
to that file), with machine state (filesystem entries, lock registries,
exception flow) made explicit.
-/

namespace SpackStage

/-! ## The fetch chain of `Stage.fetch` (stage.py 436-544) -/

/-- Outcome of one call to a candidate fetcher. A fetcher either
succeeds, raises `NoCacheError` (swallowed silently by the loop), or raises
another `SpackError` (logged and skipped). -/
inductive FetchOutcome
  | success
  | noCache
  | spackError
deriving DecidableEq

/-- A candidate fetcher appearing in the list `Stage.fetch` builds: the
stage's `default_fetcher`, a cache fetcher for one mirror-relative path, a
URL fetcher for one joined mirror URL, or a fetcher produced by the dynamic
`search_fn`. -/
inductive CandFetcher
  | defaultF
  | cacheF (relPath : String)
  | mirrorF (url : String)
  | dynamicF (idx : Nat)
deriving DecidableEq

/-- The parts of a `Stage` that determine which fetchers `fetch()` tries:
whether the default fetcher declares itself cachable, the configured
mirror-relative paths, the fetch URLs of the configured mirrors (in the
order `MirrorCollection().values()` yields them), and the dynamic search
function when one was supplied. -/
structure FetchConfig where
  defaultCachable : Bool
  mirrorPaths : List String
  mirrorFetchUrls : List String
  hasSearchFn : Bool
  dynamicFetchers : List CandFetcher
deriving DecidableEq

/-- `url_util.join(mirror.fetch_url, rel_path)` as far as ordering is
concerned: the joined URL is a function of the mirror root and the path. -/
def joinUrl (root rel : String) : String := root ++ "/" ++ rel

/-- First-occurrence de-duplication: the `mirror_urls` dict keeps one entry
per joined URL, in insertion order. -/
def dedupKeys : List String → List String :=
  go []
where
  go : List String → List String → List String
    | _, [] => []
    | seen, x :: xs => if x ∈ seen then go seen xs else x :: go (x :: seen) xs

/-- The keys of the `mirror_urls` dict (stage.py 456-471): for each mirror in
order, each mirror-relative path joined onto its fetch URL, first occurrence
kept. -/
def mirrorUrlKeys (cfg : FetchConfig) : List String :=
  dedupKeys ((cfg.mirrorFetchUrls.map (fun m => cfg.mirrorPaths.map (joinUrl m))).flatten)

/-- The list `fetchers` as built by `Stage.fetch` before the dynamic search
generator runs (stage.py 444-507): the default fetcher is appended first
(unless `mirror_only`); when `mirror_paths` is non-empty the mirror URL
fetchers are inserted at position 0 (in URL order), and then, when the
default fetcher is cachable, the cache fetchers are inserted at position 0
(in `mirror_paths` order) ahead of them. -/
def staticFetchers (cfg : FetchConfig) (mirrorOnly : Bool) : List CandFetcher :=
  let base := if mirrorOnly then [] else [CandFetcher.defaultF]
  if cfg.mirrorPaths = [] then base
  else
    let withMirrors := (mirrorUrlKeys cfg).map CandFetcher.mirrorF ++ base
    if cfg.defaultCachable then
      cfg.mirrorPaths.map CandFetcher.cacheF ++ withMirrors
    else withMirrors

/-- Everything `generate_fetchers` yields (stage.py 509-517): the static list,
then the fetchers of `search_fn` when one is present and `mirror_only` is
false. -/
def generatedFetchers (cfg : FetchConfig) (mirrorOnly : Bool) : List CandFetcher :=
  staticFetchers cfg mirrorOnly ++
    (if cfg.hasSearchFn && !mirrorOnly then cfg.dynamicFetchers else [])

/-- What `Stage.fetch` leaves behind: the active fetcher `self.fetcher`, and
the message of the `FetchError` it raised, if any. -/
structure FetchResult where
  activeFetcher : CandFetcher
  raisedMsg : Option String
deriving DecidableEq

/-- The default message of the final `FetchError` (stage.py 541). -/
def defaultFailMsg (name : String) : String := "All fetchers failed for " ++ name

/-- The for/else loop of `Stage.fetch` (stage.py 523-544): try each candidate
in turn, stopping at the first success (the successful candidate stays the
active fetcher); when every candidate raises, reset the active fetcher to the
default and raise a `FetchError` with the caller-supplied or default
message. -/
def fetchLoop (outcome : CandFetcher → FetchOutcome) (errMsg : Option String)
    (name : String) : List CandFetcher → FetchResult
  | [] => ⟨CandFetcher.defaultF, some (errMsg.getD (defaultFailMsg name))⟩
  | f :: rest =>
    if outcome f = FetchOutcome.success then ⟨f, none⟩
    else fetchLoop outcome errMsg name rest

/-- `Stage.fetch(mirror_only, err_msg)` (stage.py 436-544). -/
def stageFetch (cfg : FetchConfig) (outcome : CandFetcher → FetchOutcome)
    (mirrorOnly : Bool) (errMsg : Option String) (name : String) : FetchResult :=
  fetchLoop outcome errMsg name (generatedFetchers cfg mirrorOnly)

/-- The candidate order claim C1 asserts, built word for word from the spec:
the default fetcher first, then the cache fetchers (when the default fetcher
is cachable), then the mirror URL fetchers, then the dynamic fetchers. Kept
separate from `generatedFetchers`, which is the order the source builds. -/
def specClaimedFetchOrder (cfg : FetchConfig) : List CandFetcher :=
  [CandFetcher.defaultF]
    ++ (if cfg.defaultCachable then cfg.mirrorPaths.map CandFetcher.cacheF else [])
    ++ (mirrorUrlKeys cfg).map CandFetcher.mirrorF
    ++ (if cfg.hasSearchFn then cfg.dynamicFetchers else [])

/-- A concrete stage: one mirror path, one configured mirror, a cachable
default fetcher, no search function. -/
def cfg0 : FetchConfig :=
  { defaultCachable := true
    mirrorPaths := ["pkg/pkg-1.0.tar.gz"]
    mirrorFetchUrls := ["https://mirror.example.com"]
    hasSearchFn := false
    dynamicFetchers := [] }

/-! ## `Stage.check` (stage.py 581-594) -/

/-- The state `Stage.check` consults: the global `config:checksum` flag,
whether the active fetcher is still the default one, the
`skip_checksum_for_mirror` flag left by the last fetch, and whether the
active fetcher's own `check()` passes (its digest matches). -/
structure CheckContext where
  checksumEnabled : Bool
  activeIsDefault : Bool
  skipChecksumForMirror : Bool
  fetcherCheckOk : Bool
deriving DecidableEq

/-- What `Stage.check` does: return normally, emit the mirror warning, or
raise the fetcher's `ChecksumError`. -/
inductive CheckResult
  | ok
  | warned
  | checksumError
deriving DecidableEq

/-- `Stage.check` (stage.py 581-594): warn (and do not check) when the active
fetcher differs from the default and `skip_checksum_for_mirror` is set;
otherwise delegate to the fetcher's own check when checksum verification is
enabled; otherwise do nothing. -/
def stageCheck (c : CheckContext) : CheckResult :=
  if !c.activeIsDefault && c.skipChecksumForMirror then CheckResult.warned
  else if c.checksumEnabled then
    if c.fetcherCheckOk then CheckResult.ok else CheckResult.checksumError
  else CheckResult.ok

/-! ## The external build-root name allocator of `CMakeBuildStage`
(stage.py 786-817) -/

/-- The inner helper `inc` of `_compute_next_open_subdir`, acting on the
reversed character list of the name (the Python code reads `c[-1]` and
recurses on `c[:-1]`). `over = ord(c[-1]) // 122` is truthy exactly when the
last character is at or past `z`; then the recursion increments the prefix
(or starts a fresh `"a"` when the prefix is empty) and appends `"a"`,
otherwise the last character is bumped by one code point. -/
def incRev : List Char → List Char
  | [] => []
  | c :: rest =>
    if c.toNat / 122 ≠ 0 then
      'a' :: (if rest = [] then ['a'] else incRev rest)
    else Char.ofNat (c.toNat + 1) :: rest

/-- `inc` on a name. -/
def incName (s : String) : String := ⟨(incRev s.data.reverse).reverse⟩

/-- Python's `<=` on strings: lexicographic comparison of the code points. -/
def charListLe : List Char → List Char → Bool
  | [], _ => true
  | _ :: _, [] => false
  | a :: as, b :: bs =>
    if a.toNat < b.toNat then true
    else if b.toNat < a.toNat then false
    else charListLe as bs

/-- The sort key of `_compute_next_open_subdir`:
`(len(x.name), x.name) <= (len(y.name), y.name)` the way Python compares
tuples of a number and a string. -/
def keyLe (a b : String) : Bool :=
  decide (a.length < b.length) ||
    (a.length == b.length && charListLe a.data b.data)

/-- The name `sorted(current_ext_stages, key=sort_key)[-1]` picks: the
greatest under `keyLe` (Python's stable ascending sort puts it last; on a
tie the later element wins, which the fold reproduces). -/
def greatestName (x : String) : List String → String
  | [] => x
  | y :: ys => greatestName (if keyLe x y then y else x) ys

/-- `CMakeBuildStage._compute_next_open_subdir` (stage.py 803-817) as a
function of the remote root's directory listing: `"a"` when the listing is
empty, otherwise the greatest existing name incremented. -/
def computeNextOpenSubdir (names : List String) : String :=
  match names with
  | [] => "a"
  | x :: rest => incName (greatestName x rest)

/-- The value of a (reversed) lower-case name in bijective base-26: the
quantity the allocator counts in (`"a"` = 1, ..., `"z"` = 26, `"aa"` = 27). -/
def valRev : List Char → Nat
  | [] => 0
  | c :: rest => (c.toNat - 96) + 26 * valRev rest

/-! ## The mkdir retry loop of `CMakeBuildStage._setup_remote_build_stage`
(stage.py 786-801) -/

/-- The `while True and attempts < 200` loop: `existsAt i` tells whether the
(single, precomputed) candidate path already exists when attempt `i` issues
its `mkdir` (a racing process may create or remove it between attempts).
Returns whether any `mkdir` succeeded; when the budget runs out the loop just
falls through. The remaining budget `rem` stands for `200 - attempts`. -/
def mkdirLoopAux (existsAt : Nat → Bool) : Nat → Nat → Bool
  | _, 0 => false
  | attempts, rem + 1 =>
    if existsAt attempts then mkdirLoopAux existsAt (attempts + 1) rem else true

/-- What `_setup_remote_build_stage` ends with: the path it returns and
whether this process actually created a directory there. -/
structure RemoteSetupResult where
  path : String
  dirCreated : Bool
deriving DecidableEq

/-- `CMakeBuildStage._setup_remote_build_stage` (stage.py 786-801): the
candidate sub-directory name is computed once, before the loop, from the
listing `existing`; the loop retries `mkdir` of that same path; the path is
returned whether or not a `mkdir` ever succeeded, and nothing is raised when
the 200-attempt budget is exhausted. -/
def setupRemoteBuildStage (existing : List String) (existsAt : Nat → Bool) :
    RemoteSetupResult :=
  let subDir := computeNextOpenSubdir existing
  ⟨subDir, mkdirLoopAux existsAt 0 200⟩

/-! ## Scoped use of a `Stage` (stage.py 343-374) -/

/-- The per-stage configuration the scope semantics depend on. -/
structure ScopeConfig where
  keep : Bool
  lockEnabled : Bool
deriving DecidableEq

/-- The observable state the scope semantics act on. -/
structure ScopeState where
  dirExists : Bool
  lockHeld : Bool
  created : Bool
deriving DecidableEq

/-- `Stage.__enter__` (stage.py 343-353): acquire the write lock when locking
is enabled, then `create()` (which makes the directory and sets the created
flag). -/
def stageEnter (cfg : ScopeConfig) (st : ScopeState) : ScopeState :=
  let st1 := if cfg.lockEnabled then { st with lockHeld := true } else st
  { st1 with dirExists := true, created := true }

/-- `Stage.destroy` (stage.py 664-676) as it affects the model state: the
directory tree is removed and the created flag cleared. -/
def stageDestroy (st : ScopeState) : ScopeState :=
  { st with dirExists := false, created := false }

/-- `Stage.__exit__` (stage.py 355-374): destroy only when no exception
propagated and `keep` is not set; release the write lock either way when
locking is enabled. -/
def stageExit (cfg : ScopeConfig) (st : ScopeState) (excRaised : Bool) : ScopeState :=
  let st1 := if !excRaised && !cfg.keep then stageDestroy st else st
  if cfg.lockEnabled then { st1 with lockHeld := false } else st1

/-! ## The process-wide lock registry `Stage.stage_locks` (stage.py 325-341) -/

/-- The process-wide map of stage name to lock object; lock objects are
identified by the order in which they were allocated, so reference equality
of locks is equality of these identifiers. -/
structure LockRegistry where
  locks : List (String × Nat)
  nextId : Nat
deriving DecidableEq

/-- The lock-setup part of `Stage.__init__` with `lock=True` (stage.py
325-337): allocate a fresh lock object into `Stage.stage_locks` only when
the name has none yet, then take `self._lock` from the map. -/
def initStageLock (reg : LockRegistry) (name : String) : LockRegistry × Option Nat :=
  let upd :=
    if (reg.locks.lookup name).isNone then
      LockRegistry.mk (reg.locks ++ [(name, reg.nextId)]) (reg.nextId + 1)
    else reg
  (upd, upd.locks.lookup name)

/-! ## `ResourceStage._add_to_root_stage` placement (stage.py 693-738) -/

/-- The root stage's source tree, keyed by destination path; the value is the
content living at that path. -/
abbrev FileMap := List (String × String)

/-- The placement loop of `ResourceStage._add_to_root_stage` (stage.py
721-738): for each mapping entry `key -> value`, copy the resource content
of `source_path/key` (read through `getSrc`) to `target_path/value` only
when that destination does not yet exist; an existing destination is left
untouched. -/
def placeEntries (getSrc : String → String) (targetPath : String) :
    List (String × String) → FileMap → FileMap
  | [], fs => fs
  | (key, value) :: rest, fs =>
    let dest := targetPath ++ "/" ++ value
    let fs1 := if (fs.lookup dest).isNone then fs ++ [(dest, getSrc key)] else fs
    placeEntries getSrc targetPath rest fs1

/-! ## `CMakeBuildStage.create` and its rollback (stage.py 819-868) -/

/-- The exceptions the modelled `create` can surface: the original failure of
allocation or link creation, or the `AttributeError` Python raises when
`_teardown_remote_stage` calls `.exists()` on a `_remote_stage` that is
`None`. -/
inductive CreateExc
  | originalError
  | attributeError
deriving DecidableEq

/-- The state of a `CMakeBuildStage` that `create` reads and writes. -/
structure CMakeState where
  created : Bool
  remoteStage : Option String
  rootContextExists : Bool
  externalDirs : List String
  linkEstablished : Bool
deriving DecidableEq

/-- Outcome of `_setup_remote_build_stage` inside `create`: either it returns
a fresh external directory (which it created under the remote root), or it
raises. -/
inductive AllocResult
  | allocOk (dir : String)
  | allocFail
deriving DecidableEq

/-- Outcome of `_establish_context_link`: the symlink is made, or it
raises. -/
inductive LinkResult
  | linkOk
  | linkFail
deriving DecidableEq

/-- `CMakeBuildStage._teardown_remote_stage` (stage.py 819-833): it begins
with `if self._remote_stage.exists():`, so when `_remote_stage` is `None` it
raises `AttributeError` before touching anything; otherwise it removes the
external tree and clears `_remote_stage`. -/
def teardownRemoteStage (st : CMakeState) : CMakeState × Option CreateExc :=
  match st.remoteStage with
  | none => (st, some CreateExc.attributeError)
  | some d =>
      ({ st with externalDirs := st.externalDirs.erase d, remoteStage := none }, none)

/-- `CMakeBuildStage.create` (stage.py 853-868): when not yet created, the
base stage is created (setting the created flag), then, when the in-stage
link path does not resolve yet, the external directory is allocated and
linked; a failure of either step runs the except block, which calls
`_teardown_remote_stage`, clears the created flag and re-raises — unless the
teardown itself raises, in which case the rest of the except block never
runs. -/
def cmakeCreate (st : CMakeState) (alloc : AllocResult) (link : LinkResult) :
    CMakeState × Option CreateExc :=
  if st.created then (st, none)
  else
    let st1 := { st with created := true }
    if st1.rootContextExists then
      ({ st1 with remoteStage := some "resolved" }, none)
    else
      match alloc with
      | AllocResult.allocFail =>
          match teardownRemoteStage st1 with
          | (st2, some e) => (st2, some e)
          | (st2, none) => ({ st2 with created := false }, some CreateExc.originalError)
      | AllocResult.allocOk d =>
          let st2 := { st1 with remoteStage := some d,
                                externalDirs := st1.externalDirs ++ [d] }
          match link with
          | LinkResult.linkOk => ({ st2 with linkEstablished := true }, none)
          | LinkResult.linkFail =>
              match teardownRemoteStage st2 with
              | (st3, some e) => (st3, some e)
              | (st3, none) => ({ st3 with created := false }, some CreateExc.originalError)

/-- A fresh `CMakeBuildStage` right after `__init__`: nothing created, no
external directory allocated, no link present. -/
def freshCMakeState : CMakeState :=
  { created := false
    remoteStage := none
    rootContextExists := false
    externalDirs := []
    linkEstablished := false }

/-! ## `DIYStage` as a context manager (stage.py 949-999) -/

/-- The value a Python `__enter__` hands to the `as` binding: `self`, or
`None` when the method body just falls through. -/
inductive EnterReturn
  | selfRef
  | noneVal
deriving DecidableEq

/-- The observable state of a `DIYStage`: the wrapped directory and the
created flag. -/
structure DIYState where
  path : String
  created : Bool
deriving DecidableEq

/-- `DIYStage.__enter__` (stage.py 971-972): the body is `pass`, so the
method returns `None` and changes nothing. -/
def diyEnter (d : DIYState) : EnterReturn × DIYState := (EnterReturn.noneVal, d)

/-- `DIYStage.__exit__` (stage.py 974-975): the body is `pass`. -/
def diyExit (d : DIYState) (_excRaised : Bool) : DIYState := d

/-- The value `Stage.__enter__` returns (stage.py 353): `return self`. -/
def stageEnterReturn : EnterReturn := EnterReturn.selfRef

/-! ## Helper lemmas about the fetch loop -/

/-- When every candidate fails, the loop falls into the for/else branch. -/
lemma fetchLoop_all_fail (outcome : CandFetcher → FetchOutcome) (errMsg : Option String)
    (name : String) :
    ∀ l : List CandFetcher, (∀ f ∈ l, outcome f ≠ FetchOutcome.success) →
      fetchLoop outcome errMsg name l =
        ⟨CandFetcher.defaultF, some (errMsg.getD (defaultFailMsg name))⟩
  | [], _ => rfl
  | f :: rest, h => by
    have hf : outcome f ≠ FetchOutcome.success := h f (List.mem_cons_self f rest)
    simp only [fetchLoop, if_neg hf]
    exact fetchLoop_all_fail outcome errMsg name rest
      (fun g hg => h g (List.mem_cons_of_mem f hg))

/-- The loop stops at the first successful candidate and keeps it active. -/
lemma fetchLoop_first_success (outcome : CandFetcher → FetchOutcome)
    (errMsg : Option String) (name : String) :
    ∀ (pre : List CandFetcher) (f : CandFetcher) (post : List CandFetcher),
      (∀ g ∈ pre, outcome g ≠ FetchOutcome.success) →
      outcome f = FetchOutcome.success →
      fetchLoop outcome errMsg name (pre ++ f :: post) = ⟨f, none⟩
  | [], f, _, _, hf => by simp [fetchLoop, hf]
  | g :: pre, f, post, h, hf => by
    have hg : outcome g ≠ FetchOutcome.success := h g (List.mem_cons_self g pre)
    simp only [List.cons_append, fetchLoop, if_neg hg]
    exact fetchLoop_first_success outcome errMsg name pre f post
      (fun x hx => h x (List.mem_cons_of_mem g hx)) hf

/-! ## Claim C1 -/

/-- Claim C1 as stated is false at a concrete stage: with a cachable default
fetcher, one mirror path and one configured mirror, the candidate list the
code builds is not the list the claim states (default fetcher first, then
cache fetchers, then mirror fetchers): the code inserts the cache and mirror
fetchers ahead of the default fetcher. -/
theorem c1_counterexample :
    ¬generatedFetchers cfg0 false = specClaimedFetchOrder cfg0 := by decide

/-- Claim C1 (amended): for a fetch with `mirror_only` false on a stage with
non-empty `mirror_paths` and at least one configured mirror, the ordered
candidate list is: the cache fetchers first (present only when the default
fetcher is cachable, placed ahead of the mirror fetchers), then the mirror
URL fetchers, then the default fetcher, and finally any dynamically
discovered fetchers; iteration stops at the first fetcher whose fetch
succeeds, which stays the active fetcher. -/
theorem c1_fetch_candidate_order (cfg : FetchConfig)
    (outcome : CandFetcher → FetchOutcome) (errMsg : Option String) (name : String)
    (hpaths : cfg.mirrorPaths ≠ []) (hmirrors : cfg.mirrorFetchUrls ≠ []) :
    generatedFetchers cfg false =
      (if cfg.defaultCachable then cfg.mirrorPaths.map CandFetcher.cacheF else [])
        ++ (mirrorUrlKeys cfg).map CandFetcher.mirrorF
        ++ [CandFetcher.defaultF]
        ++ (if cfg.hasSearchFn then cfg.dynamicFetchers else [])
    ∧ ∀ (pre : List CandFetcher) (f : CandFetcher) (post : List CandFetcher),
        generatedFetchers cfg false = pre ++ f :: post →
        (∀ g ∈ pre, outcome g ≠ FetchOutcome.success) →
        outcome f = FetchOutcome.success →
        stageFetch cfg outcome false errMsg name = ⟨f, none⟩ := by
  refine ⟨?_, ?_⟩
  · have hmne : ¬cfg.mirrorPaths = [] := hpaths
    unfold generatedFetchers staticFetchers
    rw [if_neg hmne]
    cases hc : cfg.defaultCachable <;> cases hs : cfg.hasSearchFn <;>
      simp [List.append_assoc]
  · intro pre f post hsplit hpre hf
    unfold stageFetch
    rw [hsplit]
    exact fetchLoop_first_success outcome errMsg name pre f post hpre hf

/-- Witness for C1 at the concrete stage `cfg0`. -/
theorem c1_fetch_candidate_order_witness :
    generatedFetchers cfg0 false =
      (if cfg0.defaultCachable then cfg0.mirrorPaths.map CandFetcher.cacheF else [])
        ++ (mirrorUrlKeys cfg0).map CandFetcher.mirrorF
        ++ [CandFetcher.defaultF]
        ++ (if cfg0.hasSearchFn then cfg0.dynamicFetchers else []) :=
  (c1_fetch_candidate_order cfg0 (fun _ => FetchOutcome.spackError) none "pkg"
    (by decide) (by decide)).1

/-! ## Claim C2 -/

/-- Claim C2: when every candidate fetcher fails, `Stage.fetch` resets the
active fetcher to the default fetcher and raises a `FetchError` carrying the
caller-supplied message, or the default message when none was supplied;
conversely, when some candidate succeeds (the first such), no exception is
raised and the active fetcher remains that successful candidate. -/
theorem c2_fetch_failure_and_success (cfg : FetchConfig)
    (outcome : CandFetcher → FetchOutcome) (mirrorOnly : Bool)
    (errMsg : Option String) (name : String) :
    ((∀ f ∈ generatedFetchers cfg mirrorOnly, outcome f ≠ FetchOutcome.success) →
      stageFetch cfg outcome mirrorOnly errMsg name =
        ⟨CandFetcher.defaultF, some (errMsg.getD (defaultFailMsg name))⟩)
    ∧ ∀ (pre : List CandFetcher) (f : CandFetcher) (post : List CandFetcher),
        generatedFetchers cfg mirrorOnly = pre ++ f :: post →
        (∀ g ∈ pre, outcome g ≠ FetchOutcome.success) →
        outcome f = FetchOutcome.success →
        stageFetch cfg outcome mirrorOnly errMsg name = ⟨f, none⟩ := by
  refine ⟨?_, ?_⟩
  · intro hall
    exact fetchLoop_all_fail outcome errMsg name _ hall
  · intro pre f post hsplit hpre hf
    unfold stageFetch
    rw [hsplit]
    exact fetchLoop_first_success outcome errMsg name pre f post hpre hf

/-! ## Claim C3 -/

/-- Claim C3: `Stage.check` raises a checksum error exactly when checksum
verification is enabled, the active fetcher is not a no-digest mirror
substitute (active differs from default while `skip_checksum_for_mirror` is
set), and the fetcher's own check fails; with verification disabled it never
raises; and for a no-digest mirror substitute it warns instead and does not
raise. -/
theorem c3_check_policy (c : CheckContext) :
    (stageCheck c = CheckResult.checksumError ↔
      (c.checksumEnabled = true ∧
        ¬(c.activeIsDefault = false ∧ c.skipChecksumForMirror = true) ∧
        c.fetcherCheckOk = false))
    ∧ (c.checksumEnabled = false → stageCheck c ≠ CheckResult.checksumError)
    ∧ ((c.activeIsDefault = false ∧ c.skipChecksumForMirror = true) →
        stageCheck c = CheckResult.warned) := by
  obtain ⟨e, a, sk, f⟩ := c
  cases e <;> cases a <;> cases sk <;> cases f <;> decide

/-! ## Helper lemmas about the name allocator -/

lemma charListLe_refl : ∀ l : List Char, charListLe l l = true
  | [] => rfl
  | a :: as => by simp [charListLe, charListLe_refl as]

lemma charListLe_total : ∀ a b : List Char, charListLe a b = true ∨ charListLe b a = true
  | [], _ => Or.inl rfl
  | _ :: _, [] => Or.inr rfl
  | a :: as, b :: bs => by
    rcases Nat.lt_trichotomy a.toNat b.toNat with h | h | h
    · left; simp [charListLe, h]
    · rcases charListLe_total as bs with h2 | h2
      · left; simp [charListLe, h, h2]
      · right; simp [charListLe, h.symm, h2]
    · right; simp [charListLe, h]

/-- The recursive case of `charListLe`, unfolded. -/
lemma charListLe_cons_iff (a b : Char) (as bs : List Char) :
    charListLe (a :: as) (b :: bs) = true ↔
      (a.toNat < b.toNat ∨ (a.toNat = b.toNat ∧ charListLe as bs = true)) := by
  by_cases h1 : a.toNat < b.toNat
  · simp [charListLe, h1]
  · by_cases h2 : b.toNat < a.toNat
    · simp only [charListLe, if_neg h1, if_pos h2]
      constructor
      · intro h; exact absurd h (by simp)
      · intro h; omega
    · have he : a.toNat = b.toNat := by omega
      simp [charListLe, h1, h2, he]

lemma charListLe_trans : ∀ a b c : List Char,
    charListLe a b = true → charListLe b c = true → charListLe a c = true
  | [], _, _, _, _ => rfl
  | _ :: _, [], _, hab, _ => by simp [charListLe] at hab
  | _ :: _, _ :: _, [], _, hbc => by simp [charListLe] at hbc
  | a :: as, b :: bs, c :: cs, hab, hbc => by
    rw [charListLe_cons_iff] at hab hbc ⊢
    rcases hab with h1 | ⟨e1, t1⟩ <;> rcases hbc with h2 | ⟨e2, t2⟩
    · exact Or.inl (by omega)
    · exact Or.inl (by omega)
    · exact Or.inl (by omega)
    · exact Or.inr ⟨by omega, charListLe_trans as bs cs t1 t2⟩

lemma keyLe_refl (a : String) : keyLe a a = true := by
  simp [keyLe, charListLe_refl]

lemma keyLe_total (a b : String) : keyLe a b = true ∨ keyLe b a = true := by
  rcases Nat.lt_trichotomy a.length b.length with h | h | h
  · left; simp [keyLe, h]
  · rcases charListLe_total a.data b.data with h2 | h2
    · left; simp [keyLe, h, h2]
    · right; simp [keyLe, h.symm, h2]
  · right; simp [keyLe, h]

lemma keyLe_trans {a b c : String} (h1 : keyLe a b = true) (h2 : keyLe b c = true) :
    keyLe a c = true := by
  simp only [keyLe, Bool.or_eq_true, decide_eq_true_eq, Bool.and_eq_true,
    beq_iff_eq] at h1 h2 ⊢
  rcases h1 with h1 | ⟨e1, t1⟩ <;> rcases h2 with h2 | ⟨e2, t2⟩
  · exact Or.inl (by omega)
  · exact Or.inl (by omega)
  · exact Or.inl (by omega)
  · exact Or.inr ⟨by omega, charListLe_trans _ _ _ t1 t2⟩

/-- The name the fold picks is one of the listed names. -/
lemma greatestName_mem : ∀ (x : String) (rest : List String),
    greatestName x rest ∈ x :: rest
  | x, [] => List.mem_singleton.mpr rfl
  | x, y :: ys => by
    have h := greatestName_mem (if keyLe x y then y else x) ys
    simp only [greatestName]
    by_cases hk : keyLe x y = true
    · rw [if_pos hk] at h ⊢
      exact List.mem_cons_of_mem x h
    · rw [if_neg hk] at h ⊢
      rcases List.mem_cons.mp h with h | h
      · exact List.mem_cons.mpr (Or.inl h)
      · exact List.mem_cons.mpr (Or.inr (List.mem_cons.mpr (Or.inr h)))

/-- The name the fold picks is greatest under the sort key. -/
lemma greatestName_ge : ∀ (x : String) (rest : List String),
    ∀ w ∈ x :: rest, keyLe w (greatestName x rest) = true
  | x, [], w, hw => by
    have : w = x := List.mem_singleton.mp hw
    simpa [greatestName, this] using keyLe_refl x
  | x, y :: ys, w, hw => by
    simp only [greatestName]
    have hzx : keyLe x (if keyLe x y then y else x) = true := by
      by_cases hk : keyLe x y = true
      · simp [hk]
      · simp [hk, keyLe_refl]
    have hzy : keyLe y (if keyLe x y then y else x) = true := by
      by_cases hk : keyLe x y = true
      · simp [hk, keyLe_refl]
      · rcases keyLe_total x y with h | h
        · exact absurd h hk
        · simpa [hk] using h
    have hzin := greatestName_ge (if keyLe x y then y else x) ys
      (if keyLe x y then y else x) (List.mem_cons_self _ _)
    rcases List.mem_cons.mp hw with h | h
    · subst h
      exact keyLe_trans hzx hzin
    · rcases List.mem_cons.mp h with h | h
      · subst h
        exact keyLe_trans hzy hzin
      · exact greatestName_ge _ ys w (List.mem_cons_of_mem _ h)

/-- `Char.ofNat` round-trips through `toNat` below the surrogate range. -/
lemma char_toNat_ofNat {n : Nat} (h : n < 55296) : (Char.ofNat n).toNat = n := by
  have hv : n.isValidChar := Or.inl h
  simp [Char.ofNat, hv, Char.ofNatAux, Char.toNat, UInt32.toNat]

/-- The inner `inc` adds one in bijective base-26 on lower-case names. -/
lemma valRev_incRev : ∀ l : List Char, l ≠ [] →
    (∀ c ∈ l, 97 ≤ c.toNat ∧ c.toNat ≤ 122) →
    valRev (incRev l) = valRev l + 1
  | [], h, _ => absurd rfl h
  | c :: rest, _, hlc => by
    obtain ⟨h97, h122⟩ := hlc c (List.mem_cons_self c rest)
    by_cases hover : c.toNat / 122 ≠ 0
    · have hz : c.toNat = 122 := by
        have : ¬c.toNat < 122 := fun hlt =>
          hover ((Nat.div_eq_zero_iff (by norm_num)).mpr hlt)
        omega
      cases rest with
      | nil =>
        have h1 : incRev [c] = ['a', 'a'] := by simp [incRev, hover]
        rw [h1]
        simp [valRev, hz]
      | cons d ds =>
        have ih := valRev_incRev (d :: ds) (by simp)
          (fun x hx => hlc x (List.mem_cons_of_mem c hx))
        have h1 : incRev (c :: d :: ds) = 'a' :: incRev (d :: ds) := by
          simp [incRev, hover]
        rw [h1]
        have ha : ('a' : Char).toNat = 97 := rfl
        simp only [valRev, ih, hz, ha]
        omega
    · rw [not_ne_iff] at hover
      have hlt : c.toNat < 122 := (Nat.div_eq_zero_iff (by norm_num)).mp hover
      have hof : (Char.ofNat (c.toNat + 1)).toNat = c.toNat + 1 :=
        char_toNat_ofNat (by omega)
      have h1 : incRev (c :: rest) = Char.ofNat (c.toNat + 1) :: rest := by
        simp [incRev, hover]
      rw [h1]
      simp only [valRev, hof]
      omega

/-! ## Claim C4 -/

set_option maxRecDepth 8192 in
/-- Claim C4: the external build-root name allocator returns `"a"` for an
empty listing, `"aa"` for the listing `a..z`, and `"ba"` for the listing
`["az"]`; in general it picks the listed name greatest under the
(length, lexicographic) sort key and increments it, and on lower-case names
the increment adds exactly one in bijective base-26 (so a full wraparound
extends the length by one). -/
theorem c4_next_open_subdir (l : List Char) (hl : l ≠ [])
    (hlc : ∀ c ∈ l, 97 ≤ c.toNat ∧ c.toNat ≤ 122) :
    computeNextOpenSubdir [] = "a"
    ∧ computeNextOpenSubdir ["a", "b", "c", "d", "e", "f", "g", "h", "i", "j", "k",
        "l", "m", "n", "o", "p", "q", "r", "s", "t", "u", "v", "w", "x", "y", "z"] = "aa"
    ∧ computeNextOpenSubdir ["az"] = "ba"
    ∧ (∀ (x : String) (rest : List String),
        greatestName x rest ∈ x :: rest
        ∧ (∀ w ∈ x :: rest, keyLe w (greatestName x rest) = true)
        ∧ computeNextOpenSubdir (x :: rest) = incName (greatestName x rest))
    ∧ valRev (incRev l) = valRev l + 1 := by
  refine ⟨by decide, by decide, by decide, ?_, valRev_incRev l hl hlc⟩
  intro x rest
  exact ⟨greatestName_mem x rest, greatestName_ge x rest, rfl⟩

/-- Witness for C4 at the one-letter name `a`. -/
theorem c4_next_open_subdir_witness :
    valRev (incRev ['a']) = valRev ['a'] + 1 :=
  (c4_next_open_subdir ['a'] (by decide) (by decide)).2.2.2.2

/-! ## Claim C5 -/

set_option maxRecDepth 8192 in
/-- Claim C5 fails on the code. With the remote root listing `["a"]` and a
racing process keeping the candidate directory in existence at every one of
the 200 attempts, `_setup_remote_build_stage` returns the path of a directory
it never created, raising nothing on budget exhaustion; and the candidate
name is computed once before the loop, never recomputed from the directory
listing (the returned path does not depend on what the attempts observe). -/
theorem c5_retry_budget_exhaustion :
    setupRemoteBuildStage ["a"] (fun _ => true) = ⟨"b", false⟩
    ∧ ∀ (existing : List String) (f g : Nat → Bool),
        (setupRemoteBuildStage existing f).path = (setupRemoteBuildStage existing g).path :=
  ⟨by decide, fun _ _ _ => rfl⟩

/-! ## Claim C6 -/

/-- Claim C6: for a scoped use of a `Stage` (enter, body, exit), if the body
raised then the stage directory still exists after exit regardless of `keep`;
if the body completed normally and `keep` is false the directory does not
exist after exit; and in both cases the write lock is released on exit when
locking is enabled. -/
theorem c6_scope_semantics (cfg : ScopeConfig) (st : ScopeState) (exc : Bool) :
    (exc = true → (stageExit cfg (stageEnter cfg st) exc).dirExists = true)
    ∧ (exc = false → cfg.keep = false →
        (stageExit cfg (stageEnter cfg st) exc).dirExists = false)
    ∧ (cfg.lockEnabled = true → (stageExit cfg (stageEnter cfg st) exc).lockHeld = false) := by
  obtain ⟨k, l⟩ := cfg
  obtain ⟨d, lh, cr⟩ := st
  cases k <;> cases l <;> cases d <;> cases lh <;> cases cr <;> cases exc <;> decide

/-! ## Claim C7 -/

/-- Claim C7: within one process, two `Stage` constructions with the same
name and locking enabled yield the identical lock object out of
`Stage.stage_locks` (and a lock object is always assigned); the map keeps at
most one entry per name, and an existing binding of any name is never
replaced by a construction. -/
theorem c7_stage_locks (reg : LockRegistry) (name n : String) (i : Nat)
    (hnd : (reg.locks.map Prod.fst).Nodup)
    (hbound : reg.locks.lookup n = some i) :
    ((initStageLock reg name).2 = (initStageLock (initStageLock reg name).1 name).2
      ∧ ((initStageLock reg name).2).isSome = true)
    ∧ ((initStageLock reg name).1.locks.map Prod.fst).Nodup
    ∧ (initStageLock reg name).1.locks.lookup n = some i := by
  cases hl : reg.locks.lookup name with
  | some v =>
    have hne : ¬(reg.locks.lookup name).isNone = true := by simp [hl]
    simp only [initStageLock, if_neg hne]
    exact ⟨⟨by simp [hl, hne], by simp [hl]⟩, hnd, hbound⟩
  | none =>
    have hnone : (reg.locks.lookup name).isNone = true := by simp [hl]
    have hfresh : (reg.locks ++ [(name, reg.nextId)]).lookup name = some reg.nextId := by
      rw [List.lookup_append, hl]
      simp
    have hne2 : ¬((reg.locks ++ [(name, reg.nextId)]).lookup name).isNone = true := by
      simp [hfresh]
    have hmem : name ∉ reg.locks.map Prod.fst := by
      intro hm
      obtain ⟨p, hp, hfst⟩ := List.mem_map.mp hm
      have := List.lookup_eq_none_iff.mp hl p hp
      simp [hfst] at this
    constructor
    · constructor
      · simp only [initStageLock, if_pos hnone, if_neg hne2]
      · simp only [initStageLock, if_pos hnone, hfresh]
        rfl
    · constructor
      · simp only [initStageLock, if_pos hnone, List.map_append]
        exact (List.nodup_append).mpr
          ⟨hnd, List.nodup_singleton name, List.disjoint_singleton.mpr hmem⟩
      · simp only [initStageLock, if_pos hnone]
        rw [List.lookup_append, hbound]
        rfl

/-- A registry holding one lock already. -/
def reg0 : LockRegistry := ⟨[("zlib", 0)], 1⟩

/-- Witness for C7: constructing a stage named `openssl` twice against a
registry that already holds the lock of `zlib`. -/
theorem c7_stage_locks_witness :
    ((initStageLock reg0 "openssl").2
        = (initStageLock (initStageLock reg0 "openssl").1 "openssl").2
      ∧ ((initStageLock reg0 "openssl").2).isSome = true)
    ∧ ((initStageLock reg0 "openssl").1.locks.map Prod.fst).Nodup
    ∧ (initStageLock reg0 "openssl").1.locks.lookup "zlib" = some 0 :=
  c7_stage_locks reg0 "openssl" "zlib" 0 (by decide) (by decide)

/-! ## Helper lemmas about resource placement -/

lemma lookup_append_left {β : Type} {l₁ : List (String × β)} (l₂ : List (String × β))
    {k : String} {v : β} (h : l₁.lookup k = some v) : (l₁ ++ l₂).lookup k = some v := by
  rw [List.lookup_append, h]
  rfl

/-- Existing destinations survive the placement loop unchanged. -/
lemma place_preserves (getSrc : String → String) (t : String) :
    ∀ (p : List (String × String)) (fs : FileMap) (dest c : String),
      fs.lookup dest = some c →
      (placeEntries getSrc t p fs).lookup dest = some c
  | [], _, _, _, h => h
  | (k, v) :: rest, fs, dest, c, h => by
    simp only [placeEntries]
    by_cases hd : (fs.lookup (t ++ "/" ++ v)).isNone = true
    · rw [if_pos hd]
      exact place_preserves getSrc t rest _ dest c (lookup_append_left _ h)
    · rw [if_neg hd]
      exact place_preserves getSrc t rest fs dest c h

/-- A destination that is present stays present. -/
lemma place_keeps_isSome (getSrc : String → String) (t : String)
    (p : List (String × String)) (fs : FileMap) (d : String)
    (h : (fs.lookup d).isSome = true) :
    ((placeEntries getSrc t p fs).lookup d).isSome = true := by
  obtain ⟨c, hc⟩ := Option.isSome_iff_exists.mp h
  rw [place_preserves getSrc t p fs d c hc]
  rfl

/-- After one placement pass every destination of the placement map is
present. -/
lemma place_dest_present (getSrc : String → String) (t : String) :
    ∀ (p : List (String × String)) (fs : FileMap) (k v : String), (k, v) ∈ p →
      ((placeEntries getSrc t p fs).lookup (t ++ "/" ++ v)).isSome = true
  | [], _, _, _, h => absurd h (List.not_mem_nil _)
  | (k1, v1) :: rest, fs, k, v, h => by
    rcases List.mem_cons.mp h with he | hr
    · obtain ⟨hk, hv⟩ := Prod.mk.injEq k v k1 v1 ▸ he
      subst hk hv
      simp only [placeEntries]
      by_cases hd : (fs.lookup (t ++ "/" ++ v)).isNone = true
      · rw [if_pos hd]
        apply place_keeps_isSome
        rw [List.lookup_append, Option.isNone_iff_eq_none.mp hd]
        simp
      · rw [if_neg hd]
        apply place_keeps_isSome
        simpa using hd
    · simp only [placeEntries]
      exact place_dest_present getSrc t rest _ k v hr

/-- A placement pass whose destinations all exist already changes nothing. -/
lemma place_noop_of_present (getSrc : String → String) (t : String) :
    ∀ (p : List (String × String)) (fs : FileMap),
      (∀ k v, (k, v) ∈ p → (fs.lookup (t ++ "/" ++ v)).isSome = true) →
      placeEntries getSrc t p fs = fs
  | [], _, _ => rfl
  | (k1, v1) :: rest, fs, h => by
    have h1 := h k1 v1 (List.mem_cons_self _ _)
    have hne : ¬(fs.lookup (t ++ "/" ++ v1)).isNone = true := by
      intro hx
      rw [Option.isNone_iff_eq_none.mp hx] at h1
      exact absurd h1 (by simp)
    simp only [placeEntries, if_neg hne]
    exact place_noop_of_present getSrc t rest fs
      (fun k v hv => h k v (List.mem_cons_of_mem _ hv))

/-- The placement pass is idempotent. -/
lemma place_idem (getSrc : String → String) (t : String) (p : List (String × String))
    (fs : FileMap) :
    placeEntries getSrc t p (placeEntries getSrc t p fs) = placeEntries getSrc t p fs :=
  place_noop_of_present getSrc t p _ (fun k v hv => place_dest_present getSrc t p fs k v hv)

/-! ## Claim C8 -/

/-- Claim C8: `ResourceStage` content placement never overwrites an existing
destination: a destination path already holding content keeps exactly that
content through a placement pass, and running the placement pass a second
time (as a second `expand_archive` call does) leaves the whole destination
tree byte-for-byte unchanged. -/
theorem c8_resource_no_overwrite (getSrc : String → String) (targetPath : String)
    (placement : List (String × String)) (fs : FileMap) (dest c : String)
    (h : fs.lookup dest = some c) :
    (placeEntries getSrc targetPath placement fs).lookup dest = some c
    ∧ placeEntries getSrc targetPath placement (placeEntries getSrc targetPath placement fs)
        = placeEntries getSrc targetPath placement fs :=
  ⟨place_preserves getSrc targetPath placement fs dest c h,
   place_idem getSrc targetPath placement fs⟩

/-- Witness for C8: one placement entry whose destination already holds
content `old`. -/
theorem c8_resource_no_overwrite_witness :
    (placeEntries (fun _ => "new") "dst" [("", "sub")]
        [("dst/sub", "old")]).lookup "dst/sub" = some "old" :=
  (c8_resource_no_overwrite (fun _ => "new") "dst" [("", "sub")]
      [("dst/sub", "old")] "dst/sub" "old" (by decide)).1

/-! ## Claim C9 -/

/-- Claim C9 fails on the code in the allocation-failure branch. On a fresh
stage, when `_setup_remote_build_stage` itself raises, the except block of
`create` calls `_teardown_remote_stage` while `_remote_stage` is still
`None`, so the teardown raises `AttributeError`: the created flag stays true
and the original failure is not re-raised. When instead the allocation
succeeded and only `_establish_context_link` raised, the rollback behaves as
the claim says: the fresh external directory is removed, the created flag is
cleared, and the original failure is re-raised. -/
theorem c9_create_rollback :
    cmakeCreate freshCMakeState AllocResult.allocFail LinkResult.linkOk
      = ({ freshCMakeState with created := true }, some CreateExc.attributeError)
    ∧ cmakeCreate freshCMakeState (AllocResult.allocOk "a") LinkResult.linkFail
      = ({ freshCMakeState with created := false }, some CreateExc.originalError) :=
  ⟨by decide, by decide⟩

/-! ## Claim C10 -/

/-- Claim C10: `DIYStage.__enter__` returns `None` rather than the stage
object (whereas `Stage.__enter__` returns `self`), so the name bound by a
`with` statement over a `DIYStage` is `None`; entry and exit otherwise do
nothing to the wrapped directory. -/
theorem c10_diy_enter_returns_none (d : DIYState) (exc : Bool) :
    diyEnter d = (EnterReturn.noneVal, d)
    ∧ diyExit d exc = d
    ∧ stageEnterReturn = EnterReturn.selfRef
    ∧ EnterReturn.noneVal ≠ EnterReturn.selfRef :=
  ⟨rfl, rfl, rfl, by decide⟩

end SpackStage
